import Mathlib

/-!
Verification of the website-auditor-agent core against its specification.

The JavaScript sources are shallowly embedded as Lean definitions:
pure functions become Lean functions, the process-wide mutable state of the
rate limiter becomes explicit state passing, the file system becomes an
association list from paths to file contents, and code that can throw is
modelled with `Except` / `Option`.  External collaborators (the `ipaddr.js`
range tables, the WHATWG URL parser, the JavaScript regular-expression
engine, `JSON.parse`) are modelled from their documented behaviour or
abstracted as function parameters where the proved properties do not depend
on them.
-/

set_option autoImplicit false

namespace WebsiteAuditor

/-! ## IP address model (for `isPrivateAddress` in pages/api/run-audit.js)

`ipaddr.js` classifies a parsed address with `range()`, returning a range
label from its special-range tables.  We embed parsed addresses directly
(DNS always hands `ipaddr.parse` a syntactically valid address, so the
per-address `try { parse } catch` in the source never fires for resolved
addresses) and transcribe the published range tables. -/

/-- An IPv4 address as four octets. -/
structure IPv4 where
  a : Nat
  b : Nat
  c : Nat
  d : Nat
deriving DecidableEq, Repr

/-- An IPv6 address as eight 16-bit groups. -/
structure IPv6 where
  w0 : Nat
  w1 : Nat
  w2 : Nat
  w3 : Nat
  w4 : Nat
  w5 : Nat
  w6 : Nat
  w7 : Nat
deriving DecidableEq, Repr

/-- `ipaddr.js` IPv4 `SpecialRanges`, in table order:
unspecified 0.0.0.0/8, broadcast 255.255.255.255/32, multicast 224.0.0.0/4,
linkLocal 169.254.0.0/16, loopback 127.0.0.0/8, carrierGradeNat 100.64.0.0/10,
private 10.0.0.0/8 + 172.16.0.0/12 + 192.168.0.0/16, reserved ranges,
otherwise unicast. -/
def IPv4.range (x : IPv4) : String :=
  if x.a = 0 then "unspecified"
  else if x.a = 255 ∧ x.b = 255 ∧ x.c = 255 ∧ x.d = 255 then "broadcast"
  else if 224 ≤ x.a ∧ x.a ≤ 239 then "multicast"
  else if x.a = 169 ∧ x.b = 254 then "linkLocal"
  else if x.a = 127 then "loopback"
  else if x.a = 100 ∧ 64 ≤ x.b ∧ x.b ≤ 127 then "carrierGradeNat"
  else if x.a = 10 ∨ (x.a = 172 ∧ 16 ≤ x.b ∧ x.b ≤ 31) ∨ (x.a = 192 ∧ x.b = 168) then "private"
  else if (x.a = 192 ∧ x.b = 0 ∧ x.c = 0) ∨ (x.a = 192 ∧ x.b = 0 ∧ x.c = 2) ∨
          (x.a = 192 ∧ x.b = 88 ∧ x.c = 99) ∨ (x.a = 198 ∧ x.b = 51 ∧ x.c = 100) ∨
          (x.a = 203 ∧ x.b = 0 ∧ x.c = 113) ∨ (240 ≤ x.a) then "reserved"
  else "unicast"

/-- Whether an IPv6 address is in `::ffff:0:0/96` (ipaddr.js
`isIPv4MappedAddress`). -/
def IPv6.isIPv4Mapped (x : IPv6) : Bool :=
  x.w0 = 0 ∧ x.w1 = 0 ∧ x.w2 = 0 ∧ x.w3 = 0 ∧ x.w4 = 0 ∧ x.w5 = 0xffff

/-- ipaddr.js `toIPv4Address`: the low 32 bits as four octets. -/
def IPv6.toIPv4 (x : IPv6) : IPv4 :=
  { a := x.w6 / 256, b := x.w6 % 256, c := x.w7 / 256, d := x.w7 % 256 }

/-- `ipaddr.js` IPv6 `SpecialRanges`, in table order:
unspecified ::/128, linkLocal fe80::/10, multicast ff00::/8, loopback ::1/128,
uniqueLocal fc00::/7, ipv4Mapped ::ffff:0:0/96, rfc6145 ::ffff:0:0:0/96,
rfc6052 64:ff9b::/96, 6to4 2002::/16, teredo 2001::/32, reserved 2001:db8::/32,
otherwise unicast. -/
def IPv6.range (x : IPv6) : String :=
  if x.w0 = 0 ∧ x.w1 = 0 ∧ x.w2 = 0 ∧ x.w3 = 0 ∧ x.w4 = 0 ∧ x.w5 = 0 ∧ x.w6 = 0 ∧ x.w7 = 0
  then "unspecified"
  else if 0xfe80 ≤ x.w0 ∧ x.w0 ≤ 0xfebf then "linkLocal"
  else if 0xff00 ≤ x.w0 ∧ x.w0 ≤ 0xffff then "multicast"
  else if x.w0 = 0 ∧ x.w1 = 0 ∧ x.w2 = 0 ∧ x.w3 = 0 ∧ x.w4 = 0 ∧ x.w5 = 0 ∧ x.w6 = 0 ∧ x.w7 = 1
  then "loopback"
  else if 0xfc00 ≤ x.w0 ∧ x.w0 ≤ 0xfdff then "uniqueLocal"
  else if x.w0 = 0 ∧ x.w1 = 0 ∧ x.w2 = 0 ∧ x.w3 = 0 ∧ x.w4 = 0 ∧ x.w5 = 0xffff
  then "ipv4Mapped"
  else if x.w0 = 0 ∧ x.w1 = 0 ∧ x.w2 = 0 ∧ x.w3 = 0 ∧ x.w4 = 0xffff ∧ x.w5 = 0
  then "rfc6145"
  else if x.w0 = 0x64 ∧ x.w1 = 0xff9b ∧ x.w2 = 0 ∧ x.w3 = 0 ∧ x.w4 = 0 ∧ x.w5 = 0
  then "rfc6052"
  else if x.w0 = 0x2002 then "6to4"
  else if x.w0 = 0x2001 ∧ x.w1 = 0 then "teredo"
  else if x.w0 = 0x2001 ∧ x.w1 = 0xdb8 then "reserved"
  else "unicast"

/-- A parsed IP address of either family (the result of `ipaddr.parse`). -/
inductive IPAddr where
  | v4 (x : IPv4)
  | v6 (x : IPv6)
deriving DecidableEq, Repr

/-- `parsed.range()` over either family. -/
def IPAddr.range : IPAddr → String
  | .v4 x => x.range
  | .v6 x => x.range

/-- The callback of `addrs.some(a => ...)` inside `isPrivateAddress`
(pages/api/run-audit.js lines 26-38), for one resolved address: return true
when the range label is one of the five disallowed labels; else, for an
IPv4-mapped IPv6 address, check the unwrapped IPv4 form against the private
and loopback labels; else return false. -/
def addrCheck (a : IPAddr) : Bool :=
  if ["private", "loopback", "linkLocal", "carrierGradeNat", "uniqueLocal"].contains a.range
  then true
  else
    match a with
    | .v6 x =>
      if x.isIPv4Mapped
      then ["private", "loopback"].contains (x.toIPv4).range
      else false
    | _ => false

/-- pages/api/run-audit.js `isPrivateAddress(hostname)`.

The DNS lookup is passed in as `dnsResult`:
`none` models `dns.lookup` rejecting (NXDOMAIN / network error), which the
source catches and turns into `return false`; `some addrs` models a
successful resolution to the parsed addresses `addrs`. -/
def isPrivateAddress (dnsResult : Option (List IPAddr)) : Bool :=
  match dnsResult with
  | none => false
  | some addrs => addrs.any addrCheck

/-! Spec-side characterizations of the disallowed ranges, written directly
as numeric range conditions (loopback, RFC1918 private, link-local,
unique-local, carrier-grade NAT), independent of the embedded `range()`
string tables. -/

/-- An IPv4 address in a range the spec calls disallowed:
loopback 127/8, private 10/8, 172.16/12, 192.168/16, link-local 169.254/16,
carrier-grade NAT 100.64/10. -/
def specDisallowedV4 (x : IPv4) : Prop :=
  x.a = 127 ∨
  x.a = 10 ∨ (x.a = 172 ∧ 16 ≤ x.b ∧ x.b ≤ 31) ∨ (x.a = 192 ∧ x.b = 168) ∨
  (x.a = 169 ∧ x.b = 254) ∨
  (x.a = 100 ∧ 64 ≤ x.b ∧ x.b ≤ 127)

/-- An IPv4 address in the private or loopback ranges only — the ranges the
source checks an unwrapped IPv4-mapped address against. -/
def mappedDisallowedV4 (y : IPv4) : Prop :=
  y.a = 127 ∨
  y.a = 10 ∨ (y.a = 172 ∧ 16 ≤ y.b ∧ y.b ≤ 31) ∨ (y.a = 192 ∧ y.b = 168)

/-- An IPv6 address in a disallowed range: loopback ::1, link-local fe80::/10,
unique-local fc00::/7 (numeric characterization). -/
def specDisallowedV6Core (x : IPv6) : Prop :=
  (x.w0 = 0 ∧ x.w1 = 0 ∧ x.w2 = 0 ∧ x.w3 = 0 ∧ x.w4 = 0 ∧ x.w5 = 0 ∧ x.w6 = 0 ∧ x.w7 = 1) ∨
  (0xfe80 ≤ x.w0 ∧ x.w0 ≤ 0xfebf) ∨
  (0xfc00 ≤ x.w0 ∧ x.w0 ≤ 0xfdff)

/-- An address the embedded check treats as disallowed: for IPv4 the spec
ranges; for IPv6 the core disallowed v6 ranges, or an IPv4-mapped address
whose underlying IPv4 form is private or loopback (only — mapped link-local
and mapped carrier-grade NAT forms are not disallowed by the code). -/
def addrDisallowed : IPAddr → Prop
  | .v4 x => specDisallowedV4 x
  | .v6 x => specDisallowedV6Core x ∨ (x.isIPv4Mapped = true ∧ mappedDisallowedV4 x.toIPv4)

theorem mem_range_v4 (x : IPv4) :
    x.range ∈ ["private", "loopback", "linkLocal", "carrierGradeNat", "uniqueLocal"] ↔
      specDisallowedV4 x := by
  rw [IPv4.range, specDisallowedV4]
  split_ifs with h1 h2 h3 h4 h5 h6 h7 h8
  · exact iff_of_false (by decide) (by omega)
  · exact iff_of_false (by decide) (by clear h1; omega)
  · exact iff_of_false (by decide) (by clear h1 h2; omega)
  · exact iff_of_true (by decide) (by clear h1 h2 h3; omega)
  · exact iff_of_true (by decide) (by clear h1 h2 h3 h4; omega)
  · exact iff_of_true (by decide) (by clear h1 h2 h3 h4 h5; omega)
  · exact iff_of_true (by decide) (by clear h1 h2 h3 h4 h5 h6; omega)
  · exact iff_of_false (by decide) (by clear h1 h2 h3 h8; omega)
  · exact iff_of_false (by decide) (by clear h1 h2 h3 h8; omega)

theorem mem_range_v4_mapped (y : IPv4) :
    y.range ∈ ["private", "loopback"] ↔ mappedDisallowedV4 y := by
  rw [IPv4.range, mappedDisallowedV4]
  split_ifs with h1 h2 h3 h4 h5 h6 h7 h8
  · exact iff_of_false (by decide) (by omega)
  · exact iff_of_false (by decide) (by clear h1; omega)
  · exact iff_of_false (by decide) (by clear h1 h2; omega)
  · exact iff_of_false (by decide) (by clear h1 h2 h3; omega)
  · exact iff_of_true (by decide) (by clear h1 h2 h3 h4; omega)
  · exact iff_of_false (by decide) (by clear h1 h2 h3 h4 h5; omega)
  · exact iff_of_true (by decide) (by clear h1 h2 h3 h4 h5 h6; omega)
  · exact iff_of_false (by decide) (by clear h1 h2 h3 h4 h6 h8; omega)
  · exact iff_of_false (by decide) (by clear h1 h2 h3 h4 h6 h8; omega)

set_option maxHeartbeats 2000000 in
theorem mem_range_v6 (x : IPv6) :
    x.range ∈ ["private", "loopback", "linkLocal", "carrierGradeNat", "uniqueLocal"] ↔
      specDisallowedV6Core x := by
  rw [IPv6.range, specDisallowedV6Core]
  split_ifs with h1 h2 h3 h4 h5 h6 h7 h8 h9 h10 h11
  · exact iff_of_false (by decide) (by omega)
  · exact iff_of_true (by decide) (by clear h1; omega)
  · exact iff_of_false (by decide) (by clear h1 h2; omega)
  · exact iff_of_true (by decide) (by clear h1 h2 h3; omega)
  · exact iff_of_true (by decide) (by clear h1 h2 h3 h4; omega)
  · exact iff_of_false (by decide) (by clear h1 h2 h3 h5; omega)
  · exact iff_of_false (by decide) (by clear h1 h2 h3 h5 h6; omega)
  · exact iff_of_false (by decide) (by clear h1 h2 h3 h5 h6 h7; omega)
  · exact iff_of_false (by decide) (by clear h1 h2 h3 h5 h6 h7 h8; omega)
  · exact iff_of_false (by decide) (by clear h1 h2 h3 h5 h6 h7 h8 h9; omega)
  · exact iff_of_false (by decide) (by clear h1 h2 h3 h5 h6 h7 h8 h9 h10; omega)
  · exact iff_of_false (by decide) (by clear h1 h3 h6 h7 h8 h9 h10 h11; omega)

/-- An IPv4-mapped address never lies in one of the five checked range labels
itself: its `range()` is `ipv4Mapped`. -/
theorem mapped_not_core (x : IPv6) (hm : x.isIPv4Mapped = true) :
    ¬ specDisallowedV6Core x := by
  rw [IPv6.isIPv4Mapped] at hm
  rw [specDisallowedV6Core]
  simp only [decide_eq_true_eq] at hm
  omega

theorem addrCheck_v4 (x : IPv4) :
    addrCheck (IPAddr.v4 x) =
      (["private", "loopback", "linkLocal", "carrierGradeNat", "uniqueLocal"].contains
        x.range) := by
  have h : ∀ b : Bool, (if b = true then true else false) = b := fun b => by
    cases b <;> rfl
  exact h _

theorem addrCheck_v6 (x : IPv6) :
    addrCheck (IPAddr.v6 x) =
      ((["private", "loopback", "linkLocal", "carrierGradeNat", "uniqueLocal"].contains
          x.range) ||
        (if x.isIPv4Mapped then ["private", "loopback"].contains (x.toIPv4).range
         else false)) := by
  have h : ∀ b c : Bool, (if b = true then true else c) = (b || c) := fun b c => by
    cases b <;> rfl
  exact h _ _

theorem addrCheck_iff (a : IPAddr) : addrCheck a = true ↔ addrDisallowed a := by
  cases a with
  | v4 x =>
    rw [addrCheck_v4, addrDisallowed]
    exact List.elem_iff.trans (mem_range_v4 x)
  | v6 x =>
    rw [addrCheck_v6, addrDisallowed, Bool.or_eq_true]
    constructor
    · rintro (h | h)
      · exact Or.inl ((mem_range_v6 x).mp (List.elem_iff.mp h))
      · cases hm : x.isIPv4Mapped with
        | false => rw [hm] at h; simp at h
        | true =>
          rw [hm] at h; simp only [if_true] at h
          exact Or.inr ⟨rfl, (mem_range_v4_mapped _).mp (List.elem_iff.mp h)⟩
    · rintro (h | ⟨hm, h⟩)
      · exact Or.inl (List.elem_iff.mpr ((mem_range_v6 x).mpr h))
      · refine Or.inr ?_
        rw [hm]
        simpa using List.elem_iff.mpr ((mem_range_v4_mapped _).mpr h)

/-- C1: the SafeResolver check classifies via the union over resolved
addresses — but an IPv4-mapped IPv6 address is only checked against the
private and loopback IPv4 ranges after unwrapping, not against link-local
or carrier-grade NAT (see the amended statement). This theorem characterizes
exactly which resolved address sets are Disallowed: any address in a
disallowed range (with the mapped rule as the code implements it) makes the
whole check Disallowed, and the check is Allowed only when no resolved
address is disallowed. -/
theorem isPrivateAddress_iff (addrs : List IPAddr) :
    isPrivateAddress (some addrs) = true ↔ ∃ a ∈ addrs, addrDisallowed a := by
  rw [isPrivateAddress]
  rw [List.any_eq_true]
  exact exists_congr fun a => and_congr_right fun _ => addrCheck_iff a

/-- C1 counterexample: the hostname resolves to the single IPv4-mapped IPv6
address ::ffff:169.254.1.1, whose underlying IPv4 form 169.254.1.1 is
link-local — a disallowed range per the claim — yet `isPrivateAddress`
returns false (Allowed), because the unwrapped form is only compared against
the private and loopback ranges. -/
theorem c1_counterexample :
    isPrivateAddress (some [IPAddr.v6 ⟨0, 0, 0, 0, 0, 0xffff, 0xa9fe, 0x0101⟩]) = false ∧
    (IPv6.isIPv4Mapped ⟨0, 0, 0, 0, 0, 0xffff, 0xa9fe, 0x0101⟩) = true ∧
    (IPv6.toIPv4 ⟨0, 0, 0, 0, 0, 0xffff, 0xa9fe, 0x0101⟩) = ⟨169, 254, 1, 1⟩ ∧
    IPv4.range ⟨169, 254, 1, 1⟩ = "linkLocal" ∧
    "linkLocal" ∈ ["private", "loopback", "linkLocal", "carrierGradeNat", "uniqueLocal"] := by
  refine ⟨by decide, by decide, by decide, by decide, by decide⟩

/-! ## The handler's SSRF gate (pages/api/run-audit.js lines 100-106)

```js
try {
  if (await isPrivateAddress(new URL(url).hostname)) {
    return res.status(400).json({ error: "URL resolves to a private or disallowed IP" });
  }
} catch (err) {
  console.warn("[SSRF Check Warning]", err);
}
```

`isPrivateAddress` is total: every failure path inside it (DNS rejection,
address parse error) is caught internally and yields `false`.  The handler
reaches this point only after `validateUrlText` succeeded, so `new URL(url)`
cannot throw here either.  The `catch` branch — the only place the SSRF
warning is logged — is therefore unreachable, and `warned` is false on every
path of the embedding. -/

/-- Whether the gate rejected the request (HTTP 400) or fell through to the
analyzers. -/
inductive GateOutcome where
  | rejected
  | proceeded
deriving DecidableEq, Repr

/-- Result of the gate: the control-flow outcome together with whether the
`console.warn("[SSRF Check Warning]", ...)` statement executed. -/
structure GateResult where
  outcome : GateOutcome
  warned : Bool
deriving DecidableEq, Repr

/-- The SSRF gate step of the handler. -/
def ssrfGate (dnsResult : Option (List IPAddr)) : GateResult :=
  if isPrivateAddress dnsResult then { outcome := .rejected, warned := false }
  else { outcome := .proceeded, warned := false }

/-- C2 counterexample: when DNS resolution of the hostname fails
(`dnsResult = none`), the check does fail open — `isPrivateAddress` returns
false and the handler proceeds with the audit — but no warning is logged:
the failure is swallowed inside `isPrivateAddress`, and the handler's
`catch`-with-warn around the check never executes.  The claim's "the caller
logs a warning" is false. -/
theorem c2_counterexample :
    isPrivateAddress none = false ∧
    ssrfGate none = { outcome := .proceeded, warned := false } ∧
    ¬ (ssrfGate none).warned = true := by
  refine ⟨rfl, rfl, by decide⟩

/-- C2 (amended): if DNS resolution of the target hostname fails, the
SafeResolver check fails open — `isPrivateAddress` returns false, the target
is treated as Allowed and the handler proceeds with the audit — but without
logging the SSRF warning: the warning branch is unreachable on every path
because the resolution failure is swallowed inside `isPrivateAddress`
itself. -/
theorem ssrfGate_fails_open_unwarned :
    isPrivateAddress none = false ∧
    ssrfGate none = { outcome := .proceeded, warned := false } ∧
    ∀ d, (ssrfGate d).warned = false ∧
      ((ssrfGate d).outcome = .proceeded ↔ isPrivateAddress d = false) := by
  refine ⟨rfl, rfl, fun d => ?_⟩
  rw [ssrfGate]
  rcases Bool.eq_false_or_eq_true (isPrivateAddress d) with h | h <;> simp [h]

/-! ## Analyzer orchestration and audit assembly
(pages/api/run-audit.js lines 108-169)

Each analyzer call sits in its own `try`/`catch` whose `catch` keeps the
default initialisation of the result variable; the assembly then computes
the audit record from whatever the three result variables hold.  An
analyzer outcome is `Except.ok r` for a normal return and `Except.error ()`
for a throw/rejection. -/

/-- An `AnalyzerFinding`: `{ title, action }`. -/
structure Finding where
  title : String
  action : String
deriving DecidableEq, Repr

/-- One `callPSI` outcome as consumed by the handler: its `perfScore` field,
`none` when PSI errored or the performance category was absent
(lib/perf.js line 28: `perfScore` is `null` then). -/
structure PSIOutcome where
  perfScore : Option Nat
deriving DecidableEq, Repr

/-- The `seo` part of `analyzeSEO`'s result. -/
structure SeoSection where
  findings : List Finding
  scoreEstimate : Nat
deriving DecidableEq, Repr

/-- `analyzeSEO`'s result shape as used by the handler. -/
structure SeoResult where
  seo : SeoSection
  headers : List (String × String)
  html : String
deriving DecidableEq, Repr

/-- `analyzePerformance`'s result shape (lib/perf.js line 39):
`{ mobile, desktop, serverFetchMs, findings }`, where `mobile`/`desktop` are
`null` only in the handler's fallback default. -/
structure PerfResult where
  mobile : Option PSIOutcome
  desktop : Option PSIOutcome
  serverFetchMs : Option Nat
  findings : List Finding
deriving DecidableEq, Repr

/-- `analyzeSecurity`'s result shape: `{ headers, findings }`. -/
structure SecurityResult where
  findings : List Finding
  headers : List (String × String)
deriving DecidableEq, Repr

/-- Handler default `{ seo: { findings: [], scoreEstimate: 0 }, headers: {}, html: "" }`
(line 110). -/
def seoDefault : SeoResult :=
  { seo := { findings := [], scoreEstimate := 0 }, headers := [], html := "" }

/-- Handler default `{ findings: [], serverFetchMs: 0 }` (line 117); the
`mobile`/`desktop` keys are absent, i.e. `undefined`. -/
def perfDefault : PerfResult :=
  { mobile := none, desktop := none, serverFetchMs := some 0, findings := [] }

/-- Handler default `{ findings: [], headers: {} }` (line 125). -/
def securityDefault : SecurityResult :=
  { findings := [], headers := [] }

/-- A `try { x = await f() } catch { /* keep default */ }` block: the result
on success, the default on a throw or rejection. -/
def recover {α : Type} (r : Except Unit α) (d : α) : α :=
  match r with
  | .ok v => v
  | .error _ => d

/-- JavaScript `Math.round(k / 2)` for a natural `k`: round half away from
zero, which for naturals is round half up, i.e. `(k + 1) / 2` in natural
division. -/
def jsRoundHalf (k : Nat) : Nat := (k + 1) / 2

/-- `perfResult.desktop?.perfScore || 0`: 0 when `desktop` is null/undefined
or its `perfScore` is null; the score otherwise (a 0 score also yields 0,
matching JS falsiness). -/
def desktopOr0 : Option PSIOutcome → Nat
  | none => 0
  | some o => o.perfScore.getD 0

/-- The handler's performance score (lines 150-156):

```js
perfResult.mobile && perfResult.mobile.perfScore
  ? Math.round((perfResult.mobile.perfScore + (perfResult.desktop?.perfScore || 0)) / 2)
  : perfResult.desktop?.perfScore || 0
```

A mobile `perfScore` of `null` or `0` is falsy and routes to the
desktop-only branch. -/
def perfScoreOf (mobile desktop : Option PSIOutcome) : Nat :=
  match mobile with
  | some m =>
    match m.perfScore with
    | some n => if n = 0 then desktopOr0 desktop else jsRoundHalf (n + desktopOr0 desktop)
    | none => desktopOr0 desktop
  | none => desktopOr0 desktop

/-- The `seo` section of the assembled audit. -/
structure SeoOut where
  score : Nat
  findings : List Finding
deriving DecidableEq, Repr

/-- The `performance` section of the assembled audit. -/
structure PerfOut where
  score : Nat
  findings : List Finding
  mobile : Option PSIOutcome
  desktop : Option PSIOutcome
  serverFetchMs : Option Nat
deriving DecidableEq, Repr

/-- The `security` section of the assembled audit. -/
structure SecOut where
  score : Int
  findings : List Finding
  headers : List (String × String)
deriving DecidableEq, Repr

/-- The assembled `auditData` record (without `meta`/`aiSummary`/`raw`,
which no claim concerns). -/
structure Audit where
  seo : SeoOut
  performance : PerfOut
  security : SecOut
deriving DecidableEq, Repr

/-- The handler body from the three analyzer invocations to the assembled
`auditData` (lines 110-169).  `seoResult.seo.scoreEstimate || 0` is the
identity on naturals (`0 || 0` is `0`); `Math.max(0, 100 - 8*k)` is computed
in `Int`. -/
def auditOf (seoRes : Except Unit SeoResult) (perfRes : Except Unit PerfResult)
    (secRes : Except Unit SecurityResult) : Audit :=
  let seoResult := recover seoRes seoDefault
  let perfResult := recover perfRes perfDefault
  let securityResult := recover secRes securityDefault
  { seo := { score := seoResult.seo.scoreEstimate, findings := seoResult.seo.findings }
  , performance :=
    { score := perfScoreOf perfResult.mobile perfResult.desktop
    , findings := perfResult.findings
    , mobile := perfResult.mobile
    , desktop := perfResult.desktop
    , serverFetchMs := perfResult.serverFetchMs }
  , security :=
    { score := max 0 (100 - 8 * (securityResult.findings.length : Int))
    , findings := securityResult.findings
    , headers := securityResult.headers } }

/-- C3: if the performance analyzer throws or rejects, the assembled audit
still exists (the embedding is a total function), its performance section
has score 0 and empty findings, and its SEO and security sections are
exactly what they would have been for any other performance outcome — a
performance failure influences neither. -/
theorem auditOf_perf_failure (seoRes : Except Unit SeoResult)
    (secRes : Except Unit SecurityResult) (e : Unit) :
    (auditOf seoRes (Except.error e) secRes).performance.score = 0 ∧
    (auditOf seoRes (Except.error e) secRes).performance.findings = [] ∧
    ∀ perfRes,
      (auditOf seoRes perfRes secRes).seo = (auditOf seoRes (Except.error e) secRes).seo ∧
      (auditOf seoRes perfRes secRes).security =
        (auditOf seoRes (Except.error e) secRes).security := by
  exact ⟨rfl, rfl, fun _ => ⟨rfl, rfl⟩⟩

/-- C4 counterexample: with only a mobile score present (mobile 80, desktop
absent), the assembled performance score is `Math.round((80 + 0) / 2) = 40`,
not the claimed "whichever single score is present" (80): the absent desktop
score is averaged in as 0 rather than skipped. -/
theorem c4_counterexample :
    (auditOf (Except.ok seoDefault)
        (Except.ok { mobile := some { perfScore := some 80 }, desktop := none,
                     serverFetchMs := some 0, findings := [] })
        (Except.ok securityDefault)).performance.score = 40 ∧
    (40 : Nat) ≠ 80 := by
  exact ⟨rfl, by decide⟩

/-- C4 (amended): the performance score is computed as follows.  When the
mobile score is present and nonzero it is the half-up-rounded value of
`(mobile + desktop-or-0) / 2` — so with both scores present it is the
rounded average, but with only the mobile score present it is half the
mobile score, the absent desktop being averaged in as zero.  When the mobile
score is absent, null, or zero, the score is the desktop score, or zero when
that too is absent or null.  The assembled audit's performance score is this
function of the analyzer's mobile/desktop outcomes. -/
theorem perfScore_characterization :
    (∀ m d, m ≠ 0 →
      perfScoreOf (some { perfScore := some m }) (some { perfScore := some d })
        = jsRoundHalf (m + d)) ∧
    (∀ m, m ≠ 0 → perfScoreOf (some { perfScore := some m }) none = jsRoundHalf m) ∧
    (∀ dk, perfScoreOf none dk = desktopOr0 dk) ∧
    (∀ dk, perfScoreOf (some { perfScore := none }) dk = desktopOr0 dk) ∧
    (∀ dk, perfScoreOf (some { perfScore := some 0 }) dk = desktopOr0 dk) ∧
    perfScoreOf none none = 0 ∧
    (∀ k, jsRoundHalf (2 * k) = k) ∧
    (∀ k, jsRoundHalf (2 * k + 1) = k + 1) ∧
    (∀ seoRes secRes p,
      (auditOf seoRes (Except.ok p) secRes).performance.score
        = perfScoreOf p.mobile p.desktop) := by
  refine ⟨fun m d hm => ?_, fun m hm => ?_, fun dk => rfl, fun dk => rfl, fun dk => rfl,
    rfl, fun k => by rw [jsRoundHalf]; omega, fun k => by rw [jsRoundHalf]; omega, fun seoRes secRes p => rfl⟩
  · rw [perfScoreOf]
    simp only [if_neg hm]
    rfl
  · rw [perfScoreOf]
    simp only [if_neg hm]
    rfl

/-- C4 witness: the amended characterization applied at mobile 80 / desktop
60 (rounded average 70) and at mobile 80 / desktop absent (half, 40). -/
theorem perfScore_characterization_witness :
    perfScoreOf (some { perfScore := some 80 }) (some { perfScore := some 60 })
      = jsRoundHalf (80 + 60) ∧
    perfScoreOf (some { perfScore := some 80 }) none = jsRoundHalf 80 := by
  exact ⟨perfScore_characterization.1 80 60 (by decide),
         perfScore_characterization.2.1 80 (by decide)⟩

/-! ## Rate limiter (pages/api/run-audit.js lines 13-15, 56-74)

The module-level `limiter` map holds one `{ count, windowStart }` record per
client identity.  `rateLimit(ip)` is embedded as a state-passing function on
one identity's record (`none` when the identity is absent from the map),
with `Date.now()` passed in as `now` (milliseconds).  On the denial path the
source has already executed `rec.count++` on the record object held by the
map, so the stored count increments even when the request is denied.  The
JavaScript comparison `now - rec.windowStart > RATE_LIMIT_WINDOW_MS` agrees
with the truncated natural subtraction used here: for `now < windowStart`
both sides of the embedding give `false` (negative, resp. zero, is never
greater than the window).  `retryAfter` is `(windowStart + window - now) / 1000`
in JavaScript float division, embedded as exact division in `ℚ`. -/

/-- `RATE_LIMIT_WINDOW_MS = 60_000` (one minute). -/
def RATE_LIMIT_WINDOW_MS : Nat := 60000

/-- `RATE_LIMIT_MAX = 10`. -/
def RATE_LIMIT_MAX : Nat := 10

/-- One identity's `{ count, windowStart }` record in the limiter map. -/
structure RateRec where
  count : Nat
  windowStart : Nat
deriving DecidableEq, Repr

/-- The value returned by `rateLimit`: `{ allowed: true, remaining }` or
`{ allowed: false, retryAfter }` (seconds, exact). -/
inductive RateOutcome where
  | allowed (remaining : Nat)
  | denied (retryAfter : ℚ)
deriving DecidableEq, Repr

/-- `rateLimit(ip)` for one identity: current stored record and current time
in, updated stored record and outcome out. -/
def rateLimit (rec? : Option RateRec) (now : Nat) : RateRec × RateOutcome :=
  match rec? with
  | none => ({ count := 1, windowStart := now }, .allowed (RATE_LIMIT_MAX - 1))
  | some rec =>
    if now - rec.windowStart > RATE_LIMIT_WINDOW_MS then
      ({ count := 1, windowStart := now }, .allowed (RATE_LIMIT_MAX - 1))
    else if rec.count + 1 > RATE_LIMIT_MAX then
      ({ count := rec.count + 1, windowStart := rec.windowStart },
       .denied (((rec.windowStart : ℚ) + (RATE_LIMIT_WINDOW_MS : ℚ) - (now : ℚ)) / 1000))
    else
      ({ count := rec.count + 1, windowStart := rec.windowStart },
       .allowed (RATE_LIMIT_MAX - (rec.count + 1)))

/-- A sequence of requests from one identity at the given times, threading
the stored record. -/
def rateLimitRun (rec? : Option RateRec) : List Nat → Option RateRec × List RateOutcome
  | [] => (rec?, [])
  | t :: ts =>
    let s := rateLimit rec? t
    let rest := rateLimitRun (some s.1) ts
    (rest.1, s.2 :: rest.2)

/-- Whether an outcome admitted the request. -/
def RateOutcome.isAllowed : RateOutcome → Bool
  | .allowed _ => true
  | .denied _ => false

theorem rateLimitRun_in_window (ts : List Nat) :
    ∀ (k t0 : Nat), 1 ≤ k → k + ts.length ≤ RATE_LIMIT_MAX →
    (∀ t ∈ ts, t - t0 ≤ RATE_LIMIT_WINDOW_MS) →
    (rateLimitRun (some ⟨k, t0⟩) ts).1 = some ⟨k + ts.length, t0⟩ ∧
    ∀ o ∈ (rateLimitRun (some ⟨k, t0⟩) ts).2, o.isAllowed = true := by
  induction ts with
  | nil => intro k t0 _ _ _; exact ⟨rfl, by intro o ho; cases ho⟩
  | cons t ts ih =>
    intro k t0 hk hlen hin
    have hstep : rateLimit (some ⟨k, t0⟩) t =
        (⟨k + 1, t0⟩, .allowed (RATE_LIMIT_MAX - (k + 1))) := by
      rw [rateLimit]
      have h0 : ¬ (t - (⟨k, t0⟩ : RateRec).windowStart > RATE_LIMIT_WINDOW_MS) := by
        show ¬ (t - t0 > RATE_LIMIT_WINDOW_MS)
        have := hin t (by simp)
        omega
      rw [if_neg h0]
      have h1 : ¬ ((⟨k, t0⟩ : RateRec).count + 1 > RATE_LIMIT_MAX) := by
        show ¬ (k + 1 > RATE_LIMIT_MAX)
        simp only [List.length_cons] at hlen
        omega
      rw [if_neg h1]
    have hrest := ih (k + 1) t0 (by omega)
      (by simp only [List.length_cons] at hlen; omega)
      (fun u hu => hin u (by simp [hu]))
    constructor
    · show (rateLimitRun (some (rateLimit (some ⟨k, t0⟩) t).1) ts).1 = _
      rw [hstep]
      rw [hrest.1]
      simp [List.length_cons, Nat.add_comm, Nat.add_assoc, Nat.add_left_comm]
    · intro o ho
      rcases (by simpa [rateLimitRun, hstep] using ho :
          o = RateOutcome.allowed (RATE_LIMIT_MAX - (k + 1)) ∨
          o ∈ (rateLimitRun (some ⟨k + 1, t0⟩) ts).2) with h | h
      · rw [h]; rfl
      · exact hrest.2 o h

/-- C6 (amended): starting with no record, a first request at `t0` and nine
further requests within the window are all admitted (ten in total, leaving
the stored record at count 10); an eleventh request still within the window
is denied, with `retryAfter` exactly the remaining seconds until the
window's end, and the stored count keeps incrementing; and the window resets
to count 1 at the next request only once strictly more than the window
duration has elapsed since `windowStart` (at exactly `windowStart + window`
the request is still counted against the old window). -/
theorem rateLimit_window_behaviour (t0 : Nat) (ts : List Nat) (tDeny : Nat)
    (hlen : ts.length = RATE_LIMIT_MAX - 1)
    (hin : ∀ t ∈ ts, t - t0 ≤ RATE_LIMIT_WINDOW_MS)
    (hd : tDeny - t0 ≤ RATE_LIMIT_WINDOW_MS) :
    (rateLimitRun none (t0 :: ts)).1 = some ⟨RATE_LIMIT_MAX, t0⟩ ∧
    (∀ o ∈ (rateLimitRun none (t0 :: ts)).2, o.isAllowed = true) ∧
    rateLimit (some ⟨RATE_LIMIT_MAX, t0⟩) tDeny =
      (⟨RATE_LIMIT_MAX + 1, t0⟩,
       .denied (((t0 : ℚ) + (RATE_LIMIT_WINDOW_MS : ℚ) - (tDeny : ℚ)) / 1000)) ∧
    (∀ rec now, now - rec.windowStart > RATE_LIMIT_WINDOW_MS →
      rateLimit (some rec) now = (⟨1, now⟩, .allowed (RATE_LIMIT_MAX - 1))) := by
  have hfirst : rateLimit none t0 = (⟨1, t0⟩, .allowed (RATE_LIMIT_MAX - 1)) := rfl
  have hrest := rateLimitRun_in_window ts 1 t0 (by omega)
    (by rw [hlen]; rfl) hin
  refine ⟨?_, ?_, ?_, ?_⟩
  · show (rateLimitRun (some (rateLimit none t0).1) ts).1 = _
    rw [hfirst, hrest.1, hlen]
    exact rfl
  · intro o ho
    rcases (by simpa [rateLimitRun, hfirst] using ho :
        o = RateOutcome.allowed (RATE_LIMIT_MAX - 1) ∨
        o ∈ (rateLimitRun (some ⟨1, t0⟩) ts).2) with h | h
    · rw [h]; rfl
    · exact hrest.2 o h
  · rw [rateLimit]
    have h0 : ¬ (tDeny - (⟨RATE_LIMIT_MAX, t0⟩ : RateRec).windowStart >
        RATE_LIMIT_WINDOW_MS) := by
      show ¬ (tDeny - t0 > RATE_LIMIT_WINDOW_MS)
      omega
    rw [if_neg h0]
    have h1 : (⟨RATE_LIMIT_MAX, t0⟩ : RateRec).count + 1 > RATE_LIMIT_MAX := by
      show RATE_LIMIT_MAX + 1 > RATE_LIMIT_MAX
      omega
    rw [if_pos h1]
  · intro rec now h
    rw [rateLimit, if_pos h]

/-- C6 witness: the amended behaviour at the concrete trace 0, 1, …, 9 with
an 11th request at time 10: ten admissions, then a denial with 59.99 seconds
of retry delay; and a reset for a request one millisecond after the window's
end. -/
theorem rateLimit_window_behaviour_witness :
    (rateLimitRun none [0, 1, 2, 3, 4, 5, 6, 7, 8, 9]).1 = some ⟨RATE_LIMIT_MAX, 0⟩ ∧
    (∀ o ∈ (rateLimitRun none [0, 1, 2, 3, 4, 5, 6, 7, 8, 9]).2, o.isAllowed = true) ∧
    rateLimit (some ⟨RATE_LIMIT_MAX, 0⟩) 10 =
      (⟨RATE_LIMIT_MAX + 1, 0⟩,
       .denied (((0 : ℚ) + (RATE_LIMIT_WINDOW_MS : ℚ) - (10 : ℚ)) / 1000)) ∧
    (∀ rec now, now - rec.windowStart > RATE_LIMIT_WINDOW_MS →
      rateLimit (some rec) now = (⟨1, now⟩, .allowed (RATE_LIMIT_MAX - 1))) :=
  rateLimit_window_behaviour 0 [1, 2, 3, 4, 5, 6, 7, 8, 9] 10 (by decide)
    (by decide) (by decide)

/-- C6 counterexample: at `now = windowStart + RATE_LIMIT_WINDOW_MS` exactly
— the first instant at which the full window duration has elapsed — the code
does not reset: with a stored count of 10 the request is denied (with zero
seconds of retry delay) and the stored count rises to 11, instead of the
claimed reset to count 1 with a fresh `windowStart`.  The reset requires
strictly more than the window duration to have elapsed. -/
theorem c6_counterexample :
    rateLimit (some ⟨10, 0⟩) 60000 = (⟨11, 0⟩, .denied 0) ∧
    (rateLimit (some ⟨10, 0⟩) 60000).1 ≠ ⟨1, 60000⟩ ∧
    (rateLimit (some ⟨10, 0⟩) 60000).2.isAllowed = false := by
  have h : rateLimit (some ⟨10, 0⟩) 60000 =
      (⟨11, 0⟩, .denied (((0 : ℚ) + (RATE_LIMIT_WINDOW_MS : ℚ) - (60000 : ℚ)) / 1000)) := rfl
  have hq : (((0 : ℚ) + (RATE_LIMIT_WINDOW_MS : ℚ) - (60000 : ℚ)) / 1000) = 0 := by
    rw [RATE_LIMIT_WINDOW_MS]
    norm_num
  refine ⟨by rw [h, hq], by rw [h]; decide, by rw [h]; rfl⟩

/-! ## fetchWithTimeout (website-auditor-agent/lib/fetcher.js lines 25-54)

The undici `fetch` promise either resolves with a response (any HTTP status,
including 4xx/5xx) or rejects (network-level failure, or the timeout
controller firing and aborting).  The response is embedded as `JsResponse`;
`res.ok` is the WHATWG `status in [200, 299]`; `res.text()` either yields
the body text or throws (embedded as `Except`), and a read error is
swallowed leaving `text` null. -/

/-- JavaScript `s.includes(pat)`: substring containment. -/
def strContains (s pat : String) : Bool :=
  (List.range (s.data.length + 1)).any fun i => pat.data.isPrefixOf (s.data.drop i)

/-- A resolved HTTP response as consumed by `fetchWithTimeout`: status,
headers (names lowercased, as the Headers object exposes them), final URL
after redirects, and the outcome of reading the body. -/
structure JsResponse where
  status : Nat
  headers : List (String × String)
  finalUrl : String
  bodyRead : Except Unit String
deriving Repr

/-- How the underlying `fetch` call ended: a resolved response (with the
elapsed wall-clock milliseconds), or a rejection — network-level failure or
timeout abort. -/
inductive FetchOutcome where
  | success (r : JsResponse) (elapsed : Nat)
  | netError
deriving Repr

/-- The `FetchResult` object built on the success path (line 50):
`{ ok, status, headers, url, text, elapsed }`. -/
structure FetchResult where
  ok : Bool
  status : Nat
  headers : List (String × String)
  finalUrl : String
  text : Option String
  elapsed : Nat
deriving Repr

/-- Lines 43-44: the content-type header (or `''`) indicates a text-like
class when it contains `text`, `json`, `html` or `xml`. -/
def textLikeCT (ct : String) : Bool :=
  strContains ct "text" || strContains ct "json" || strContains ct "html" || strContains ct "xml"

/-- `fetchWithTimeout(url, opts, msTimeout)`: propagates a fetch rejection
(the `finally` only clears the timer), otherwise builds the `FetchResult`,
reading the body only for text-like content types and swallowing body read
errors. -/
def fetchWithTimeout (outcome : FetchOutcome) : Except Unit FetchResult :=
  match outcome with
  | .netError => .error ()
  | .success r elapsed =>
    let ct := (r.headers.lookup "content-type").getD ""
    let text : Option String :=
      if textLikeCT ct then
        match r.bodyRead with
        | .ok t => some t
        | .error _ => none
      else none
    .ok { ok := decide (200 ≤ r.status ∧ r.status ≤ 299), status := r.status,
          headers := r.headers, finalUrl := r.finalUrl, text := text, elapsed := elapsed }

/-- C9: `fetchWithTimeout` never throws for a response with a 4xx/5xx
status — it returns a `FetchResult` with `ok = false` — its `text` is
populated only when the content-type is text-like and the body read
succeeded (null otherwise), and it fails only for a network-level error or
timeout (the rejection propagates unchanged). -/
theorem fetchWithTimeout_contract (r : JsResponse) (elapsed : Nat)
    (h : 400 ≤ r.status) :
    fetchWithTimeout FetchOutcome.netError = Except.error () ∧
    ∃ fr, fetchWithTimeout (FetchOutcome.success r elapsed) = Except.ok fr ∧
      fr.ok = false ∧
      fr.status = r.status ∧
      ∀ t, fr.text = some t →
        textLikeCT ((r.headers.lookup "content-type").getD "") = true ∧
        r.bodyRead = Except.ok t := by
  refine ⟨rfl, ?_⟩
  rw [fetchWithTimeout]
  refine ⟨_, rfl, ?_, rfl, ?_⟩
  · simp only [decide_eq_false_iff_not]
    omega
  · intro t ht
    simp only at ht
    by_cases hct : textLikeCT ((r.headers.lookup "content-type").getD "") = true
    · rw [if_pos hct] at ht
      refine ⟨hct, ?_⟩
      cases hb : r.bodyRead with
      | error e => rw [hb] at ht; simp at ht
      | ok b => rw [hb] at ht; simp only [Option.some.injEq] at ht; rw [ht]
    · rw [if_neg hct] at ht
      simp at ht

/-- C9 witness: a concrete 404 text/html response with a readable body:
the call returns a result rather than failing, with `ok = false`. -/
theorem fetchWithTimeout_contract_witness :
    fetchWithTimeout FetchOutcome.netError = Except.error () ∧
    ∃ fr, fetchWithTimeout (FetchOutcome.success
        { status := 404, headers := [("content-type", "text/html")],
          finalUrl := "https://example.com/missing",
          bodyRead := Except.ok "<html>gone</html>" } 120) = Except.ok fr ∧
      fr.ok = false ∧
      fr.status = 404 ∧
      ∀ t, fr.text = some t →
        textLikeCT (([("content-type", "text/html")].lookup "content-type").getD "") = true ∧
        (Except.ok "<html>gone</html>" : Except Unit String) = Except.ok t :=
  fetchWithTimeout_contract
    { status := 404, headers := [("content-type", "text/html")],
      finalUrl := "https://example.com/missing",
      bodyRead := Except.ok "<html>gone</html>" } 120 (by decide)

/-! ## AI fallback chain (lib/ai.js: `fallbackAnswerFromSnippets`, `answerQuery`)

The evidence map (`relevantJson`) is a JS object embedded as an
insertion-ordered association list.  The provider chain OpenAI → Gemini →
Deepseek is embedded as a list of per-provider outcomes: `disabled` (no
credential configured, skipped), `failed` (the call threw — HTTP error,
timeout, missing key — and was caught), or `succeeded text` (the raw model
text).  `JSON.parse` on a model response and the regular-expression matches
are external engines abstracted as function parameters; every theorem below
holds for all of their possible behaviours. -/

/-- A citation `{ section, excerpt }` (`section` is a Lean keyword, hence
`sectionKey`). -/
structure Citation where
  sectionKey : String
  excerpt : String
deriving DecidableEq, Repr

/-- The result shape of `answerQuery` and `fallbackAnswerFromSnippets`. -/
structure AnswerResult where
  answer : String
  citations : List Citation
  suggestedActions : List String
  urgency : String
deriving DecidableEq, Repr

/-- `Set.add` on a JS `Set` of strings, which preserves insertion order and
ignores duplicates. -/
def addUnique (l : List String) (s : String) : List String :=
  if l.contains s then l else l ++ [s]

/-- The four marker scans of `fallbackAnswerFromSnippets` (lib/ai.js lines
163-180), given the outcomes of the four `text.match(...)` tests:
accumulates the suggestion set in insertion order and threads the urgency
updates (`Medium` for broken-link signals; `Medium` for performance signals
unless already `High`; `Medium` for security-header signals; the meta/title
signal adds a suggestion without touching urgency; a catch-all suggestion
when nothing matched). -/
def fallbackSignals (m404 mperf msec mmeta : Bool) : List String × String :=
  let p1 := if m404 then
      (addUnique [] "Fix broken links and update or remove 404 resources.", "Medium")
    else ([], "Low")
  let p2 := if mperf then
      (addUnique p1.1
        "Improve LCP/TTFB: optimize images, enable caching, review server response times.",
       if p1.2 = "High" then "High" else "Medium")
    else p1
  let p3 := if msec then
      (addUnique p2.1
        "Add/strengthen security headers: CSP, HSTS, X-Frame-Options, X-Content-Type-Options.",
       "Medium")
    else p2
  let s4 := if mmeta then
      addUnique p3.1 "Add concise titles and unique meta descriptions for primary pages."
    else p3.1
  let s5 := if s4.isEmpty then
      ["Review the evidence snippets and prioritize fixes across performance, SEO and security."]
    else s4
  (s5, p3.2)

/-- lib/ai.js `fallbackAnswerFromSnippets(relevant, query)` (lines 155-188):
citations from the first six evidence entries (300-char excerpts), marker
scans over the space-joined lowercased evidence values, up to four suggested
actions.  `matchText text alts` abstracts the word-boundary alternation
regex `text.match(/\b(alt1|alt2|...)\b/)`. -/
def fallbackAnswerFromSnippets (matchText : String → List String → Bool)
    (relevant : List (String × String)) (query : String) : AnswerResult :=
  let citations := (relevant.take 6).map fun kv =>
    { sectionKey := kv.1, excerpt := kv.2.take 300 }
  let text := (String.intercalate " " (relevant.map Prod.snd)).toLower
  let sig := fallbackSignals
    (matchText text ["404", "not found", "broken"])
    (matchText text ["lcp", "largest contentful paint", "ttfb", "long ttfb", "time to first byte"])
    (matchText text
      ["content-security-policy", "csp", "hsts", "x-frame-options", "x-content-type-options"])
    (matchText text ["meta description", "missing meta", "title tag"])
  { answer := "AI unavailable — returning evidence-based summary from audit JSON. See citations for evidence."
  , citations := citations
  , suggestedActions := sig.1.take 4
  , urgency := sig.2 }

/-- A structured object produced by `JSON.parse` on a model response, with
the fields `answerQuery` reads (`none` for an absent field). -/
structure ParsedAnswer where
  answer : Option String
  summary : Option String
  citations : Option (List Citation)
  suggestedActions : Option (List String)
  recommendations : Option (List String)
  urgency : Option String
deriving Repr

/-- JS `a || b` where `a` is an optional string: absent and `""` are falsy. -/
def jsStrOr (a : Option String) (b : String) : String :=
  match a with
  | some s => if s = "" then b else s
  | none => b

/-- The structured branch of `answerQuery` (lines 382-388):
`parsed.answer || parsed.summary || ""`, `parsed.citations || citations.slice(0,6)`,
`parsed.suggestedActions || parsed.recommendations || []`, `parsed.urgency || "Low"`
(a present array is truthy even when empty). -/
def structuredAnswer (citations : List Citation) (p : ParsedAnswer) : AnswerResult :=
  { answer := jsStrOr p.answer (jsStrOr p.summary "")
  , citations := p.citations.getD (citations.take 6)
  , suggestedActions := (p.suggestedActions.orElse fun _ => p.recommendations).getD []
  , urgency := jsStrOr p.urgency "Low" }

/-- The tail of `/^\d+\./` after its first digit: more digits, then `.`. -/
def numberedDigitsThenDot : List Char → Bool
  | [] => false
  | c :: rest => if c.isDigit then numberedDigitsThenDot rest else decide (c = '.')

/-- `l.startsWith("-") || l.startsWith("•") || /^\d+\./.test(l)` (line 393). -/
def isActionLine (l : String) : Bool :=
  l.startsWith "-" || l.startsWith "•" ||
  (match l.data with
   | [] => false
   | c :: rest => c.isDigit && numberedDigitsThenDot rest)

/-- A character of the class `[\-•\d\.\)\s]` stripped from the front of an
action line (line 393). -/
def isMarkerChar (c : Char) : Bool :=
  c = '-' || c = '•' || c.isDigit || c = '.' || c = ')' || c.isWhitespace

/-- `l.replace(/^[\-•\d\.\)\s]+/, "")`. -/
def stripActionMarker (l : String) : String :=
  String.mk (l.data.dropWhile isMarkerChar)

/-- The heuristic extraction branch of `answerQuery` (lines 390-402): first
non-empty trimmed line as the answer, bullet/numbered lines (up to four,
markers stripped) as suggested actions, urgency from the regex search
(abstracted as `extractUrgency`; `"Low"` when neither pattern matched). -/
def heuristicAnswer (extractUrgency : String → Option String)
    (citations : List Citation) (rawText : String) : AnswerResult :=
  let lines := ((rawText.splitOn "\n").map String.trim).filter (fun l => l ≠ "")
  { answer := lines.headD ""
  , citations := citations
  , suggestedActions := ((lines.filter isActionLine).take 4).map stripActionMarker
  , urgency := (extractUrgency rawText).getD "Low" }

/-- How one provider call in the chain ended. -/
inductive ProviderOutcome where
  | disabled
  | failed
  | succeeded (text : String)
deriving DecidableEq, Repr

/-- The provider loop of `answerQuery` (lines 373-408): skip a disabled
provider; a throw is caught and the loop advances; an empty trimmed response
throws inside the `try` and likewise advances; the first usable response is
parsed (structured, else heuristic) and returned. -/
def attemptProviders (tryParseJson : String → Option ParsedAnswer)
    (extractUrgency : String → Option String) (citations : List Citation) :
    List ProviderOutcome → Option AnswerResult
  | [] => none
  | p :: rest =>
    match p with
    | .disabled => attemptProviders tryParseJson extractUrgency citations rest
    | .failed => attemptProviders tryParseJson extractUrgency citations rest
    | .succeeded t =>
      if t.trim = "" then attemptProviders tryParseJson extractUrgency citations rest
      else
        match tryParseJson t.trim with
        | some parsed => some (structuredAnswer citations parsed)
        | none => some (heuristicAnswer extractUrgency citations t.trim)

/-- lib/ai.js `answerQuery(relevantJson, query, options)` (lines 355-412):
throws `"Invalid query"` for a falsy query; otherwise builds the citation
list from the first eight evidence entries (400-char excerpts), tries each
provider in order, and returns the deterministic evidence-based fallback
when every provider is disabled or failed. -/
def answerQuery (tryParseJson : String → Option ParsedAnswer)
    (extractUrgency : String → Option String)
    (matchText : String → List String → Bool)
    (providers : List ProviderOutcome)
    (relevant : List (String × String)) (query : String) :
    Except String AnswerResult :=
  if query = "" then .error "Invalid query"
  else
    let citations := (relevant.take 8).map fun kv =>
      { sectionKey := kv.1, excerpt := kv.2.take 400 }
    match attemptProviders tryParseJson extractUrgency citations providers with
    | some r => .ok r
    | none => .ok (fallbackAnswerFromSnippets matchText relevant query)

theorem attemptProviders_all_fail (tryParseJson : String → Option ParsedAnswer)
    (extractUrgency : String → Option String) (providers : List ProviderOutcome)
    (hp : ∀ p ∈ providers, p = ProviderOutcome.disabled ∨ p = ProviderOutcome.failed) :
    ∀ citations, attemptProviders tryParseJson extractUrgency citations providers = none := by
  induction providers with
  | nil => intro citations; rfl
  | cons p rest ih =>
    intro citations
    rcases hp p (by simp) with h | h <;>
      rw [h, attemptProviders] <;>
      exact ih (fun q hq => hp q (by simp [hq])) citations

theorem fallbackSignals_urgency (m404 mperf msec mmeta : Bool) :
    (fallbackSignals m404 mperf msec mmeta).2 ∈ ["Low", "Medium", "High"] := by
  cases m404 <;> cases mperf <;> cases msec <;> cases mmeta <;> decide

/-- C5: for every evidence map and non-empty query, when every provider is
unconfigured (disabled) or fails, `answerQuery` returns normally rather than
throwing, with a non-empty answer, an urgency among Low/Medium/High, and
citations whose section names are all keys of the supplied evidence map.
The parse and regex engines are universally quantified, so this holds for
every behaviour of `JSON.parse` and the marker regexes. -/
theorem answerQuery_fallback_contract
    (tryParseJson : String → Option ParsedAnswer)
    (extractUrgency : String → Option String)
    (matchText : String → List String → Bool)
    (providers : List ProviderOutcome)
    (relevant : List (String × String)) (query : String)
    (hq : query ≠ "")
    (hp : ∀ p ∈ providers, p = ProviderOutcome.disabled ∨ p = ProviderOutcome.failed) :
    ∃ r, answerQuery tryParseJson extractUrgency matchText providers relevant query
        = Except.ok r ∧
      r.answer ≠ "" ∧
      r.urgency ∈ ["Low", "Medium", "High"] ∧
      ∀ c ∈ r.citations, c.sectionKey ∈ relevant.map Prod.fst := by
  refine ⟨fallbackAnswerFromSnippets matchText relevant query, ?_, ?_, ?_, ?_⟩
  · rw [answerQuery, if_neg hq]
    simp only [attemptProviders_all_fail tryParseJson extractUrgency providers hp]
  · intro h
    have hne : ("AI unavailable — returning evidence-based summary from audit JSON. See citations for evidence." : String) = "" → False := by
      decide
    exact hne h
  · exact fallbackSignals_urgency
      (matchText ((String.intercalate " " (relevant.map Prod.snd)).toLower)
        ["404", "not found", "broken"])
      (matchText ((String.intercalate " " (relevant.map Prod.snd)).toLower)
        ["lcp", "largest contentful paint", "ttfb", "long ttfb", "time to first byte"])
      (matchText ((String.intercalate " " (relevant.map Prod.snd)).toLower)
        ["content-security-policy", "csp", "hsts", "x-frame-options", "x-content-type-options"])
      (matchText ((String.intercalate " " (relevant.map Prod.snd)).toLower)
        ["meta description", "missing meta", "title tag"])
  · intro c hc
    simp only [fallbackAnswerFromSnippets, List.mem_map] at hc
    obtain ⟨kv, hkv, hck⟩ := hc
    rw [← hck]
    exact List.mem_map.mpr ⟨kv, List.take_subset 6 relevant hkv, rfl⟩

/-- C5 witness: the contract applied at a concrete evidence map
`{seo: ..., security: ...}`, query `"why is my page slow"`, an OpenAI-style
chain where the first provider is unconfigured and the second failed, and
concrete (trivial) parse/regex engines. -/
theorem answerQuery_fallback_contract_witness :
    ∃ r, answerQuery (fun _ => none) (fun _ => none) (fun _ _ => false)
        [ProviderOutcome.disabled, ProviderOutcome.failed]
        [("seo", "missing meta description"), ("security", "missing hsts header")]
        "why is my page slow" = Except.ok r ∧
      r.answer ≠ "" ∧
      r.urgency ∈ ["Low", "Medium", "High"] ∧
      ∀ c ∈ r.citations,
        c.sectionKey ∈ [("seo", "missing meta description"),
          ("security", "missing hsts header")].map Prod.fst :=
  answerQuery_fallback_contract (fun _ => none) (fun _ => none) (fun _ _ => false)
    [ProviderOutcome.disabled, ProviderOutcome.failed]
    [("seo", "missing meta description"), ("security", "missing hsts header")]
    "why is my page slow" (by decide) (by decide)

/-! ## File system model and audit store (lib/storage.js)

The file system is an association list from path strings (relative to the
process working directory) to file contents; a write shadows and drops any
previous binding for the path.  `JSON.stringify`/`JSON.parse` on records are
abstracted as an encode/decode pair over an arbitrary record type. -/

/-- Path ↦ contents. -/
def FS : Type := List (String × String)

/-- Read a file: the binding for the path, if any. -/
def fsRead (fs : FS) (p : String) : Option String :=
  (fs.find? fun kv => kv.1 == p).map Prod.snd

/-- Delete a file (all bindings for the path). -/
def fsRemove (fs : FS) (p : String) : FS :=
  fs.filter fun kv => !(kv.1 == p)

/-- Write (create or overwrite) a file. -/
def fsWrite (fs : FS) (p c : String) : FS :=
  (p, c) :: fsRemove fs p

/-- `fs.promises.rename(src, dst)`: move the contents of `src` to `dst`
(identity when `src` does not exist; the sources only rename files they just
wrote). -/
def fsRename (fs : FS) (src dst : String) : FS :=
  match fsRead fs src with
  | none => fs
  | some c => fsWrite (fsRemove fs src) dst c

theorem find?_filter_ne (fs : FS) (p q : String) (h : ¬ q = p) :
    ((fs.filter fun kv => !(kv.1 == p)).find? fun kv => kv.1 == q)
      = fs.find? fun kv => kv.1 == q := by
  induction fs with
  | nil => rfl
  | cons kv rest ih =>
    by_cases hk : kv.1 = p
    · have h1 : (fun kv => !(kv.1 == p)) kv = false := by simp [hk]
      have h2 : (fun kv => kv.1 == q) kv = false := by simp [hk]; intro hq; exact h hq.symm
      rw [List.filter_cons_of_neg (by simp [h1]), List.find?_cons_of_neg _ (by simp [h2])]
      exact ih
    · by_cases hq : kv.1 = q
      · rw [List.filter_cons_of_pos (by simp [hk]), List.find?_cons_of_pos _ (by simp [hq]),
          List.find?_cons_of_pos _ (by simp [hq])]
      · rw [List.filter_cons_of_pos (by simp [hk]), List.find?_cons_of_neg _ (by simp [hq]),
          List.find?_cons_of_neg _ (by simp [hq])]
        exact ih

theorem find?_filter_self (fs : FS) (p : String) :
    ((fs.filter fun kv => !(kv.1 == p)).find? fun kv => kv.1 == p) = none := by
  induction fs with
  | nil => rfl
  | cons kv rest ih =>
    by_cases hk : kv.1 = p
    · rw [List.filter_cons_of_neg (by simp [hk])]
      exact ih
    · rw [List.filter_cons_of_pos (by simp [hk]), List.find?_cons_of_neg _ (by simp [hk])]
      exact ih

theorem fsRead_fsWrite_self (fs : FS) (p c : String) :
    fsRead (fsWrite fs p c) p = some c := by
  rw [fsRead, fsWrite, List.find?_cons_of_pos _ (by simp)]
  rfl

theorem fsRead_fsWrite_ne (fs : FS) (p c q : String) (h : q ≠ p) :
    fsRead (fsWrite fs p c) q = fsRead fs q := by
  rw [fsRead, fsWrite, List.find?_cons_of_neg _ (by simp; intro hq; exact h hq.symm)]
  rw [fsRemove, find?_filter_ne fs p q h]
  rfl

theorem fsRead_fsRemove_ne (fs : FS) (p q : String) (h : q ≠ p) :
    fsRead (fsRemove fs p) q = fsRead fs q := by
  rw [fsRead, fsRemove, find?_filter_ne fs p q h]
  rfl

theorem fsRead_fsRemove_self (fs : FS) (p : String) :
    fsRead (fsRemove fs p) p = none := by
  rw [fsRead, fsRemove, find?_filter_self fs p]
  rfl

/-- lib/storage.js `AUDITS_DIR = path.join(process.cwd(), "data", "audits")`,
written relative to the working directory. -/
def AUDITS_DIR : String := "data/audits"

/-- A character kept unchanged by `siteId.replace(/[^a-zA-Z0-9\-_.]/g, "_")`. -/
def allowedChar (c : Char) : Bool :=
  ('a' ≤ c ∧ c ≤ 'z') ∨ ('A' ≤ c ∧ c ≤ 'Z') ∨ ('0' ≤ c ∧ c ≤ '9') ∨
  c = '-' ∨ c = '_' ∨ c = '.'

/-- `siteId.replace(/[^a-zA-Z0-9\-_.]/g, "_")` (lib/storage.js lines 22, 31). -/
def sanitizeSiteId (s : String) : String :=
  String.mk (s.data.map fun c => if allowedChar c then c else '_')

/-- The file name `${safeName}.json`. -/
def auditFileName (siteId : String) : String :=
  sanitizeSiteId siteId ++ ".json"

/-- `path.join(AUDITS_DIR, safeName + ".json")`. -/
def auditFilePath (siteId : String) : String :=
  AUDITS_DIR ++ "/" ++ auditFileName siteId

/-- lib/storage.js `saveAudit(siteId, jsonObj)` (lines 29-38): serialize,
write to `file + ".tmp"`, rename into place, return `true`.  The identifier
is supplied by the caller; nothing is generated. -/
def saveAudit {α : Type} (encode : α → String) (siteId : String) (jsonObj : α)
    (fs : FS) : FS × Bool :=
  let file := auditFilePath siteId
  let tmp := file ++ ".tmp"
  let fs1 := fsWrite fs tmp (encode jsonObj)
  (fsRename fs1 tmp file, true)

/-- lib/storage.js `getAudit(siteId)` (lines 19-27): null for a falsy
(empty) siteId; null when the file does not exist; otherwise parse, with a
parse failure throwing `"Audit JSON parse error"`. -/
def getAudit {α : Type} (decode : String → Option α) (siteId : String)
    (fs : FS) : Except String (Option α) :=
  if siteId = "" then .ok none
  else
    match fsRead fs (auditFilePath siteId) with
    | none => .ok none
    | some raw =>
      match decode raw with
      | some r => .ok (some r)
      | none => .error "Audit JSON parse error"

theorem append_ne_of_ne_empty (s t : String) (ht : t ≠ "") : s ++ t ≠ s := by
  intro h
  have hlen := congrArg String.length h
  rw [String.length_append] at hlen
  have h0 : t.length = 0 := by omega
  exact ht (String.ext (by simpa [String.length] using List.length_eq_zero.mp h0))

theorem tmp_ne_file (siteId : String) :
    auditFilePath siteId ++ ".tmp" ≠ auditFilePath siteId :=
  append_ne_of_ne_empty _ _ (by decide)

/-- C7 (amended): `saveAudit` writes the record under the caller-supplied
`siteId` — no identifier is generated — and returns the constant `true`, not
an identifier.  The write is atomic in the tmp-then-rename sense: the first
step leaves the target file untouched (a reader still sees the old
contents), and after the rename the target holds the complete encoded
record.  For a record whose encoding decodes back to itself
(JSON-serializable) and a non-empty `siteId`, `saveAudit` followed by
`getAudit` with the same `siteId` returns the saved record. -/
theorem saveAudit_roundtrip {α : Type} (encode : α → String)
    (decode : String → Option α) (siteId : String) (r : α) (fs : FS)
    (hs : siteId ≠ "") (hd : decode (encode r) = some r) :
    (saveAudit encode siteId r fs).2 = true ∧
    fsRead (fsWrite fs (auditFilePath siteId ++ ".tmp") (encode r))
        (auditFilePath siteId)
      = fsRead fs (auditFilePath siteId) ∧
    (saveAudit encode siteId r fs).1 =
      fsRename (fsWrite fs (auditFilePath siteId ++ ".tmp") (encode r))
        (auditFilePath siteId ++ ".tmp") (auditFilePath siteId) ∧
    fsRead (saveAudit encode siteId r fs).1 (auditFilePath siteId)
      = some (encode r) ∧
    getAudit decode siteId (saveAudit encode siteId r fs).1 = .ok (some r) := by
  have hne := tmp_ne_file siteId
  have hstep1 : fsRead (fsWrite fs (auditFilePath siteId ++ ".tmp") (encode r))
      (auditFilePath siteId) = fsRead fs (auditFilePath siteId) :=
    fsRead_fsWrite_ne fs _ _ _ (fun h => hne h.symm)
  have hfinal : fsRead (saveAudit encode siteId r fs).1 (auditFilePath siteId)
      = some (encode r) := by
    show fsRead (fsRename (fsWrite fs (auditFilePath siteId ++ ".tmp") (encode r))
      (auditFilePath siteId ++ ".tmp") (auditFilePath siteId)) (auditFilePath siteId)
      = some (encode r)
    rw [fsRename, fsRead_fsWrite_self]
    exact fsRead_fsWrite_self _ _ _
  refine ⟨rfl, hstep1, rfl, hfinal, ?_⟩
  rw [getAudit, if_neg hs, hfinal]
  simp only [hd]

/-- C7 witness: the amended statement at a concrete record and store. -/
theorem saveAudit_roundtrip_witness :
    (saveAudit (fun s => s) "site-1" "payload" []).2 = true ∧
    fsRead (fsWrite [] (auditFilePath "site-1" ++ ".tmp") "payload")
        (auditFilePath "site-1")
      = fsRead [] (auditFilePath "site-1") ∧
    (saveAudit (fun s => s) "site-1" "payload" []).1 =
      fsRename (fsWrite [] (auditFilePath "site-1" ++ ".tmp") "payload")
        (auditFilePath "site-1" ++ ".tmp") (auditFilePath "site-1") ∧
    fsRead (saveAudit (fun s => s) "site-1" "payload" []).1 (auditFilePath "site-1")
      = some "payload" ∧
    getAudit (fun s => some s) "site-1" (saveAudit (fun s => s) "site-1" "payload" []).1
      = .ok (some "payload") :=
  saveAudit_roundtrip (fun s => s) (fun s => some s) "site-1" "payload" []
    (by decide) rfl

/-- C7 counterexample: `saveAudit` does not generate or return an
identifier.  Its return value is the constant `true` whatever the
caller-chosen `siteId`, and two saves under the same `siteId` write the same
file, the second silently replacing the first — after saving record "1" and
then record "2" under `site-a`, the store holds exactly one file, containing
"2"; record "1" is gone, which the claim's fresh-identifier-per-save
semantics would forbid. -/
theorem c7_counterexample :
    (saveAudit (fun s => s) "site-a" "1" []).2 = true ∧
    (saveAudit (fun s => s) "other-site" "2" []).2 = true ∧
    fsRead (saveAudit (fun s => s) "site-a" "1" []).1 (auditFilePath "site-a")
      = some "1" ∧
    fsRead (saveAudit (fun s => s) "site-a" "2"
        ((saveAudit (fun s => s) "site-a" "1" []).1)).1 (auditFilePath "site-a")
      = some "2" ∧
    ((saveAudit (fun s => s) "site-a" "2"
        ((saveAudit (fun s => s) "site-a" "1" []).1)).1.all
      fun kv => !(kv.2 == "1")) = true := by
  refine ⟨rfl, rfl, by decide, by decide, by decide⟩

/-! ## Path confinement of the store (C10) -/

/-- POSIX-style resolution of a component list: `.` is dropped, `..` pops
the previous component. -/
def normalizeComponents (cs : List String) : List String :=
  cs.foldl (fun acc c => if c = "." then acc
    else if c = ".." then acc.dropLast else acc ++ [c]) []

theorem allowedChar_ne_slash (c : Char) (h : allowedChar c = true) : c ≠ '/' := by
  intro hc
  subst hc
  exact absurd h (by decide)

theorem sanitize_no_slash (s : String) :
    ∀ c ∈ (sanitizeSiteId s).data, c ≠ '/' := by
  intro c hc
  rw [sanitizeSiteId] at hc
  simp only [List.mem_map] at hc
  obtain ⟨c0, _, hmap⟩ := hc
  by_cases ha : allowedChar c0 = true
  · rw [if_pos ha] at hmap
    rw [← hmap]
    exact allowedChar_ne_slash c0 ha
  · rw [if_neg ha] at hmap
    rw [← hmap]
    decide

theorem auditFileName_no_slash (siteId : String) :
    ∀ c ∈ (auditFileName siteId).data, c ≠ '/' := by
  intro c hc
  rw [auditFileName, String.data_append] at hc
  rcases List.mem_append.mp hc with h | h
  · exact sanitize_no_slash siteId c h
  · have hdata : (".json" : String).data = ['.', 'j', 's', 'o', 'n'] := rfl
    rw [hdata] at h
    fin_cases h <;> decide

theorem auditFileName_length (siteId : String) :
    (auditFileName siteId).length = siteId.length + 5 := by
  rw [auditFileName, String.length_append, sanitizeSiteId]
  have : (String.mk (siteId.data.map fun c => if allowedChar c then c else '_')).length
      = siteId.length := by
    show (siteId.data.map fun c => if allowedChar c then c else '_').length = siteId.length
    rw [List.length_map]
    rfl
  rw [this]
  rfl

theorem auditFileName_not_dots (siteId : String) :
    auditFileName siteId ≠ "." ∧ auditFileName siteId ≠ ".." := by
  refine ⟨fun h => ?_, fun h => ?_⟩
  · have hl := congrArg String.length h
    rw [auditFileName_length] at hl
    have h1 : ("." : String).length = 1 := rfl
    omega
  · have hl := congrArg String.length h
    rw [auditFileName_length] at hl
    have h1 : (".." : String).length = 2 := rfl
    omega

theorem normalize_data_audits (n : String) (h1 : n ≠ ".") (h2 : n ≠ "..") :
    normalizeComponents ["data", "audits", n] = ["data", "audits", n] := by
  rw [normalizeComponents]
  show (if n = "." then ["data", "audits"]
    else if n = ".." then (["data", "audits"] : List String).dropLast
    else ["data", "audits"] ++ [n]) = ["data", "audits", n]
  rw [if_neg h1, if_neg h2]
  rfl

theorem tmp_name_no_slash (siteId : String) :
    ∀ c ∈ (auditFileName siteId ++ ".tmp").data, c ≠ '/' := by
  intro c hc
  rw [String.data_append] at hc
  rcases List.mem_append.mp hc with h | h
  · exact auditFileName_no_slash siteId c h
  · have hdata : (".tmp" : String).data = ['.', 't', 'm', 'p'] := rfl
    rw [hdata] at h
    fin_cases h <;> decide

theorem tmp_name_not_dots (siteId : String) :
    auditFileName siteId ++ ".tmp" ≠ "." ∧ auditFileName siteId ++ ".tmp" ≠ ".." := by
  refine ⟨fun h => ?_, fun h => ?_⟩
  · have hl := congrArg String.length h
    rw [String.length_append, auditFileName_length] at hl
    have h1 : ("." : String).length = 1 := rfl
    have h2 : (".tmp" : String).length = 4 := rfl
    omega
  · have hl := congrArg String.length h
    rw [String.length_append, auditFileName_length] at hl
    have h1 : (".." : String).length = 2 := rfl
    have h2 : (".tmp" : String).length = 4 := rfl
    omega

/-- C10 counterexample to "access only the `{safeName}.json` file":
`saveAudit` also touches the temporary file `{safeName}.json.tmp`.  With a
stale temporary file left at `data/audits/a.json.tmp`, saving under siteId
`"a"` changes that path too (the stale content disappears when the fresh
temporary file is renamed over the target), and that path is distinct from
the claimed single file `data/audits/a.json`. -/
theorem c10_counterexample :
    fsRead [(auditFilePath "a" ++ ".tmp", "stale")] (auditFilePath "a" ++ ".tmp")
      = some "stale" ∧
    fsRead (saveAudit (fun s => s) "a" "rec"
        [(auditFilePath "a" ++ ".tmp", "stale")]).1 (auditFilePath "a" ++ ".tmp")
      = none ∧
    auditFilePath "a" ++ ".tmp" ≠ auditFilePath "a" := by
  refine ⟨by decide, by decide, tmp_ne_file "a"⟩

/-- C10 (amended): `getAudit` and `saveAudit` access only the file whose
name is the sanitized siteId (every character outside `[a-zA-Z0-9-_.]`
replaced by `_`) with `.json` appended — plus, for `saveAudit`, the
temporary file with `.tmp` further appended — both joined directly under the
fixed `data/audits` directory.  `getAudit`'s result depends only on the
contents of that one path; `saveAudit` leaves every other path unchanged;
and both file names contain no path separator and are not `.` or `..`, so
resolving them under `data/audits` cannot escape the directory: no `siteId`
(including ones containing separators or traversal sequences) reaches any
path outside it. -/
theorem storage_path_confinement {α : Type} (decode : String → Option α)
    (encode : α → String) :
    (∀ siteId (fs fs' : FS),
      fsRead fs (auditFilePath siteId) = fsRead fs' (auditFilePath siteId) →
      getAudit decode siteId fs = getAudit decode siteId fs') ∧
    (∀ siteId (r : α) (fs : FS) (q : String),
      q ≠ auditFilePath siteId → q ≠ auditFilePath siteId ++ ".tmp" →
      fsRead (saveAudit encode siteId r fs).1 q = fsRead fs q) ∧
    (∀ siteId,
      auditFilePath siteId = String.intercalate "/" ["data", "audits", auditFileName siteId] ∧
      (∀ c ∈ (auditFileName siteId).data, c ≠ '/') ∧
      (∀ c ∈ (auditFileName siteId ++ ".tmp").data, c ≠ '/') ∧
      normalizeComponents ["data", "audits", auditFileName siteId]
        = ["data", "audits", auditFileName siteId] ∧
      normalizeComponents ["data", "audits", auditFileName siteId ++ ".tmp"]
        = ["data", "audits", auditFileName siteId ++ ".tmp"]) := by
  refine ⟨?_, ?_, ?_⟩
  · intro siteId fs fs' h
    rw [getAudit, getAudit, h]
  · intro siteId r fs q hq1 hq2
    show fsRead (fsRename (fsWrite fs (auditFilePath siteId ++ ".tmp") (encode r))
      (auditFilePath siteId ++ ".tmp") (auditFilePath siteId)) q = fsRead fs q
    rw [fsRename, fsRead_fsWrite_self]
    rw [fsRead_fsWrite_ne _ _ _ _ hq1]
    rw [fsRead_fsRemove_ne _ _ _ hq2]
    rw [fsRead_fsWrite_ne _ _ _ _ hq2]
  · intro siteId
    refine ⟨?_, auditFileName_no_slash siteId, tmp_name_no_slash siteId, ?_, ?_⟩
    · rw [auditFilePath, AUDITS_DIR]
      rw [String.intercalate]
      rw [String.intercalate.go, String.intercalate.go, String.intercalate.go]
      simp [String.append_assoc]
    · exact normalize_data_audits _ (auditFileName_not_dots siteId).1
        (auditFileName_not_dots siteId).2
    · exact normalize_data_audits _ (tmp_name_not_dots siteId).1
        (tmp_name_not_dots siteId).2

/-- C10 witness: the confinement statements applied at a concrete
traversal-attempting siteId `"../../etc/passwd"` with concrete stores. -/
theorem storage_path_confinement_witness :
    getAudit (fun s => some s) "../../etc/passwd"
        [(auditFilePath "../../etc/passwd", "x")]
      = getAudit (fun s => some s) "../../etc/passwd"
        [(auditFilePath "../../etc/passwd", "x"), ("etc/passwd", "y")] ∧
    fsRead (saveAudit (fun s => s) "../../etc/passwd" "rec" [("etc/passwd", "y")]).1
        "etc/passwd"
      = fsRead [("etc/passwd", "y")] "etc/passwd" :=
  ⟨(storage_path_confinement (fun s => some s) (fun s => s)).1 "../../etc/passwd"
      [(auditFilePath "../../etc/passwd", "x")]
      [(auditFilePath "../../etc/passwd", "x"), ("etc/passwd", "y")] (by decide),
   (storage_path_confinement (fun s => some s) (fun s => s)).2.1 "../../etc/passwd"
      "rec" [("etc/passwd", "y")] "etc/passwd" (by decide) (by decide)⟩

/-! ## Layered audit lookup (pages/api/chat-analyst.js `findAuditByIdOrSite`)

Step 1 reads `data/audits.json` (embedded as `auditsJson : Option (List
(String × StoredAudit))`, `none` when the file is missing or unparsable):
first a direct key lookup, then one pass over the entries in insertion
order, each entry tried against its criteria in source order.  Step 2 reads
`data/audits/{id}.json` with the raw (unsanitized) id, ignoring parse
failures.  Step 3 calls `lib/storage.js getAudit(id)` (which sanitizes the
name), swallowing any throw.  `new URL(u).hostname` is modelled from the
WHATWG behaviour for the absolute http(s) URLs this app stores: the text
between `"://"` and the first of `/ : ? #`, lowercased; id-like strings
without a scheme separator make the constructor throw (`none`). -/

/-- The `meta` object of a stored audit, with the fields the lookup reads. -/
structure AuditMeta where
  siteId : Option String
  url : Option String
deriving DecidableEq, Repr

/-- A stored audit record as seen by the lookup (only `meta` is consulted;
records without a `meta` key behave as `{}`). -/
structure StoredAudit where
  meta : Option AuditMeta
deriving DecidableEq, Repr

/-- Split a character list at the first `"://"`, returning the text before
it and the text after it. -/
def splitSchemeSep : List Char → Option (List Char × List Char)
  | [] => none
  | ':' :: '/' :: '/' :: rest => some ([], rest)
  | c :: rest => (splitSchemeSep rest).map fun p => (c :: p.1, p.2)

/-- `new URL(s).hostname`, modelled from the WHATWG URL specification for
the scheme-qualified URLs stored by this app (no userinfo): the text
between the first `"://"` and the first of `/ : ? #`, lowercased; `none`
models the constructor throwing (no scheme separator, or an empty scheme or
host). -/
def urlHostname (s : String) : Option String :=
  match splitSchemeSep s.data with
  | none => none
  | some (scheme, rest) =>
    if scheme.isEmpty then none
    else
      let host := rest.takeWhile fun c => !(c == '/' || c == ':' || c == '?' || c == '#')
      if host.isEmpty then none else some (String.mk (host.map Char.toLower))

/-- One loop body of the `Object.entries` scan (chat-analyst.js lines
47-61): `meta.siteId === id`, then `meta.url === id`, then — inside the
`try` — `hostname === id`, then `url.includes(id)`; a URL-parse throw skips
both of the last two. -/
def matchesRecord (id : String) (v : StoredAudit) : Bool :=
  let meta := v.meta.getD { siteId := none, url := none }
  (match meta.siteId with
   | some s => s == id
   | none => false) ||
  (match meta.url with
   | none => false
   | some u =>
     (u == id) ||
     (match urlHostname u with
      | some h => (h == id) || strContains u id
      | none => false))

/-- Step 3 of the lookup: `lib/storage.js getAudit(id)`, any throw caught
and ignored, a null result falling through to the final `return null`. -/
def storageFallback (decode : String → Option StoredAudit) (fs : FS) (id : String) :
    Option StoredAudit :=
  match getAudit decode id fs with
  | .ok v => v
  | .error _ => none

/-- chat-analyst.js `findAuditByIdOrSite(id)` (lines 41-83). -/
def findAuditByIdOrSite (decode : String → Option StoredAudit)
    (auditsJson : Option (List (String × StoredAudit))) (fs : FS)
    (id : String) : Option StoredAudit :=
  let fromMain : Option StoredAudit :=
    match auditsJson with
    | none => none
    | some audits =>
      match audits.find? (fun kv => kv.1 == id) with
      | some kv => some kv.2
      | none =>
        match audits.find? (fun kv => matchesRecord id kv.2) with
        | some kv => some kv.2
        | none => none
  match fromMain with
  | some v => some v
  | none =>
    match fsRead fs (AUDITS_DIR ++ "/" ++ id ++ ".json") with
    | some raw =>
      (match decode raw with
       | some v => some v
       | none => storageFallback decode fs id)
    | none => storageFallback decode fs id

/-- The layering as the amended claim describes it: direct key lookup,
else the single-pass scan (first record matching any criterion), else the
raw per-file location, else the sanitized storage lookup, else `none`. -/
def findSpec (decode : String → Option StoredAudit)
    (auditsJson : Option (List (String × StoredAudit))) (fs : FS)
    (id : String) : Option StoredAudit :=
  (((auditsJson.bind fun audits => (audits.find? fun kv => kv.1 == id).map Prod.snd).orElse
      fun _ => auditsJson.bind fun audits =>
        (audits.find? fun kv => matchesRecord id kv.2).map Prod.snd).orElse
    fun _ => (fsRead fs (AUDITS_DIR ++ "/" ++ id ++ ".json")).bind decode).orElse
    fun _ => storageFallback decode fs id

/-- C8 counterexample record A: no identifier or siteId match, but its URL
contains the searched identifier as a substring. -/
def c8recA : StoredAudit :=
  { meta := some { siteId := some "other-1", url := some "https://aaa.example/find-me" } }

/-- C8 counterexample record B: its `siteId` equals the searched identifier
exactly. -/
def c8recB : StoredAudit :=
  { meta := some { siteId := some "find-me", url := some "https://bbb.example/" } }

theorem findAudit_eq_findSpec (decode : String → Option StoredAudit)
    (auditsJson : Option (List (String × StoredAudit))) (fs : FS) (id : String) :
    findAuditByIdOrSite decode auditsJson fs id = findSpec decode auditsJson fs id := by
  rw [findAuditByIdOrSite.eq_def, findSpec]
  cases auditsJson with
  | none =>
    simp only [Option.bind]
    cases hraw : fsRead fs (AUDITS_DIR ++ "/" ++ id ++ ".json") with
    | none => simp [Option.orElse]
    | some raw =>
      cases hdec : decode raw with
      | none => simp [Option.orElse, hdec]
      | some v => simp [Option.orElse, hdec]
  | some audits =>
    cases hk : audits.find? (fun kv => kv.1 == id) with
    | some kv => simp [Option.orElse, Option.bind, hk]
    | none =>
      cases hm : audits.find? (fun kv => matchesRecord id kv.2) with
      | some kv => simp [Option.orElse, Option.bind, hk, hm]
      | none =>
        simp only [Option.bind, hk, hm, Option.orElse]
        cases hraw : fsRead fs (AUDITS_DIR ++ "/" ++ id ++ ".json") with
        | none => simp [Option.orElse]
        | some raw =>
          cases hdec : decode raw with
          | none => simp [Option.orElse, hdec]
          | some v => simp [Option.orElse, hdec]

/-- C8 (amended): the lookup is layered as: exact identifier (store key)
match first; otherwise a single pass over all records in iteration order
returning the first record for which any of (siteId equality, url equality,
hostname equality, url-substring containment) holds, the criteria tried in
that order within each record but not prioritized across records; otherwise
the per-record file keyed by the raw identifier; otherwise the sanitized
storage lookup (`findSpec` composes exactly these layers); and when nothing
matches anywhere the result is `none` — never a throw, the embedding being a
total function. -/
theorem findAudit_layering (decode : String → Option StoredAudit)
    (audits : List (String × StoredAudit)) (fs : FS) (id : String) :
    findAuditByIdOrSite decode (some audits) fs id = findSpec decode (some audits) fs id ∧
    findAuditByIdOrSite decode none fs id = findSpec decode none fs id ∧
    ((∀ kv ∈ audits, ¬ kv.1 = id ∧ matchesRecord id kv.2 = false) →
      fsRead fs (AUDITS_DIR ++ "/" ++ id ++ ".json") = none →
      fsRead fs (auditFilePath id) = none →
      findAuditByIdOrSite decode (some audits) fs id = none) := by
  refine ⟨findAudit_eq_findSpec decode (some audits) fs id,
    findAudit_eq_findSpec decode none fs id, fun hscan hraw hsan => ?_⟩
  have h1 : audits.find? (fun kv => kv.1 == id) = none :=
    List.find?_eq_none.mpr fun kv hkv => by simpa using (hscan kv hkv).1
  have h2 : audits.find? (fun kv => matchesRecord id kv.2) = none :=
    List.find?_eq_none.mpr fun kv hkv => by simp [(hscan kv hkv).2]
  rw [findAuditByIdOrSite.eq_def]
  simp only [h1, h2, hraw, storageFallback, getAudit]
  by_cases hid : id = ""
  · rw [if_pos hid]
  · rw [if_neg hid, hsan]

theorem c8_no_match_scan :
    ∀ kv ∈ [("id-1", c8recB)], ¬ kv.1 = "zzz" ∧ matchesRecord "zzz" kv.2 = false := by
  decide

/-- C8 witness: the layering applied at the counterexample store (first
conjunct, no hypotheses), and the nothing-matches case discharged at a
store containing one unrelated record queried with an unmatched
identifier. -/
theorem findAudit_layering_witness :
    findAuditByIdOrSite (fun _ => none)
        (some [("id-1", c8recB)]) [] "zzz"
      = findSpec (fun _ => none) (some [("id-1", c8recB)]) [] "zzz" ∧
    findAuditByIdOrSite (fun _ => none) (some [("id-1", c8recB)]) [] "zzz" = none :=
 by
  have h := findAudit_layering (fun _ => none) [("id-1", c8recB)] ([] : FS) "zzz"
  exact ⟨h.1, h.2.2 c8_no_match_scan rfl rfl⟩

/-- C8 counterexample: the claim's layered priority (siteId/url equality
over hostname over substring, across the whole scan) would return record B,
whose `siteId` equals the identifier; the code's single pass returns the
earlier record A on a mere URL-substring hit.  Record A matches no
equality criterion: its siteId differs, its url differs, and its hostname
`aaa.example` differs. -/
theorem c8_counterexample :
    findAuditByIdOrSite (fun _ => none)
        (some [("id-1", c8recA), ("id-2", c8recB)]) [] "find-me" = some c8recA ∧
    c8recA ≠ c8recB ∧
    matchesRecord "find-me" c8recB = true ∧
    c8recA.meta = some { siteId := some "other-1", url := some "https://aaa.example/find-me" } ∧
    urlHostname "https://aaa.example/find-me" = some "aaa.example" ∧
    strContains "https://aaa.example/find-me" "find-me" = true := by
  refine ⟨by decide, by decide, by decide, by decide, by decide, by decide⟩

end WebsiteAuditor
